import Mathlib

/-!
Shallow embedding of the voice-clone-api job orchestration core.

Sources embedded here:
* `src/src/types/index.ts` — the `TrainingJob` record and its `status` enum.
* `src/unnamed/part_001` (the train router) — `POST /train`, `DELETE /train/:jobId`,
  `GET /train/download/:jobId`, and the `trainInBackground` pipeline driver.
* `src/src/services/rvc.ts` — the `RVCService` stage adapters (`convert`,
  `preprocessDataset`, `extractFeatures`, `train`, `createIndex`,
  `cancelTraining`) and the `runningProcesses` side table.
* `src/src/routes/models.ts` (second half, the convert router) — `POST /convert`
  request defaults.

Modelling conventions:
* The job record's mutable `status`/`progress`/`currentEpoch` fields are
  modelled by `JobState`; the pipeline driver `trainInBackground` is modelled
  as the `jobTrace` function producing the ordered list of snapshots of the
  stored job record, one snapshot per mutation site in the source, driven by a
  `StageOutcomes` value that records how each subprocess finished (the
  subprocess results are free inputs of the embedding).
* Filesystem paths are modelled by their `/`-separated segment lists
  (`FsPath`): every dynamic segment interpolated by the source is either a
  UUID job id or a `model_name` validated against `[A-Za-z0-9_-]+`, so no
  segment contains a slash and segment-list equality coincides with path
  string equality.  Environment defaults `RVC_DIR=/app/rvc` and
  `MODELS_DIR=/data/models` are used, as in the source.
* A subprocess spawn is modelled by the argument list handed to `spawn`;
  fallible adapter calls return `Except String`, `.error` meaning the promise
  rejected before or without a spawn.
-/

namespace VoiceCloneApi

/-- `TrainingJob.status` from `src/src/types/index.ts`: the exact seven-value
union type.  Note there is no cancellation/terminated value. -/
inductive JobStatus where
  | queued
  | preprocessing
  | extracting_features
  | training
  | indexing
  | completed
  | failed
deriving DecidableEq, Repr

/-- The driver-mutated fields of a `TrainingJob` record: `status`, `progress`,
`currentEpoch` (`src/src/types/index.ts`). -/
structure JobState where
  status : JobStatus
  progress : Nat
  currentEpoch : Nat
deriving DecidableEq, Repr

/-- How each stage's subprocess finished, for one run of `trainInBackground`.
`trainEpochEvents` is the sequence of epoch numbers the `train` adapter's
stdout parser reported through the `onProgress` callback (rvc.ts lines
240-253); it is an unconstrained input of the model, as the external
process's output is. -/
structure StageOutcomes where
  preprocessOk : Bool
  extractOk : Bool
  trainEpochEvents : List Nat
  trainOk : Bool
  indexOk : Bool
deriving DecidableEq, Repr

/-- The job-record update performed by the `onProgress` callback
(part_001 lines 263-266): `currentEpoch := epoch;
progress := 30 + Math.floor((epoch / epochs) * 65)`, in exact arithmetic. -/
def epochUpdate (epochs e : Nat) : JobState :=
  ⟨.training, 30 + 65 * e / epochs, e⟩

/-- The job record at the end of the training stage: the entry state
`(training, 30, 0)` folded through every epoch callback. -/
def afterTrain (epochs : Nat) (evs : List Nat) : JobState :=
  evs.foldl (fun _ e => epochUpdate epochs e) ⟨.training, 30, 0⟩

/-- The ordered snapshots of the stored job record over one run:
the `queued` record created by `POST /train` (part_001 lines 91-104),
then one snapshot per mutation site of `trainInBackground`
(part_001 lines 226-289).  A failing stage rejects its promise, and the
`catch` block sets `status := failed` leaving `progress` and `currentEpoch`
at their last values. -/
def jobTrace (epochs : Nat) (oc : StageOutcomes) : List JobState :=
  ⟨.queued, 0, 0⟩ ::
  ⟨.preprocessing, 5, 0⟩ ::
  (match oc.preprocessOk with
  | false => [⟨.failed, 5, 0⟩]
  | true =>
  ⟨.extracting_features, 20, 0⟩ ::
  (match oc.extractOk with
  | false => [⟨.failed, 20, 0⟩]
  | true =>
  ⟨.training, 30, 0⟩ ::
  (oc.trainEpochEvents.map (epochUpdate epochs) ++
  (let lt := afterTrain epochs oc.trainEpochEvents
  match oc.trainOk with
  | false => [⟨.failed, lt.progress, lt.currentEpoch⟩]
  | true =>
  ⟨.indexing, 95, lt.currentEpoch⟩ ::
  (match oc.indexOk with
  | false => [⟨.failed, 95, lt.currentEpoch⟩]
  | true => [⟨.completed, 100, lt.currentEpoch⟩])))))

/-- Index into `jobTrace` of the stored record at the moment `POST /train`
sends its 202 response: the handler stores the `queued` record (index 0) and
then calls `trainInBackground(jobId, ...)` without `await` (part_001 line
107), so the async function's body runs synchronously up to its first
`await` — through `job.status = 'preprocessing'; job.progress = 5`
(lines 237-238, index 1) — before control returns to the handler and the
response is sent. -/
def submitReturnIndex : Nat := 1

/-- The allowed status-transition edges of the §4.5 state graph:
forward stage order plus `failed` from every non-terminal state. -/
def statusEdge : JobStatus → JobStatus → Bool
  | .queued, .preprocessing => true
  | .preprocessing, .extracting_features => true
  | .extracting_features, .training => true
  | .training, .indexing => true
  | .indexing, .completed => true
  | .queued, .failed => true
  | .preprocessing, .failed => true
  | .extracting_features, .failed => true
  | .training, .failed => true
  | .indexing, .failed => true
  | _, _ => false

/-- One observed step of the stored record either leaves the status unchanged
(an intra-stage progress update) or follows an edge of the state graph. -/
def statusStep (a b : JobState) : Prop :=
  a.status = b.status ∨ statusEdge a.status b.status = true

instance : DecidablePred fun p : JobState × JobState => statusStep p.1 p.2 :=
  fun _ => by unfold statusStep; infer_instance

instance (a b : JobState) : Decidable (statusStep a b) := by
  unfold statusStep; infer_instance

/-! ### Filesystem paths (segment lists) -/

/-- A filesystem path, as its list of `/`-separated segments. -/
abbrev FsPath := List String

/-- Dataset directory for a job:
`` `/tmp/voice-clone/training/${jobId}/dataset` `` (part_001 lines 18, 82). -/
def datasetDirPath (jobId : String) : FsPath :=
  ["tmp", "voice-clone", "training", jobId, "dataset"]

/-- The toolkit working directory used by preprocess, feature extraction,
training and index build: `path.join(RVC_DIR, 'logs', modelName)` with the
default `RVC_DIR=/app/rvc` (rvc.ts lines 5, 112, 146, 185, 284).  Note it
is keyed by the model name, not the job id. -/
def logsDirPath (modelName : String) : FsPath :=
  ["app", "rvc", "logs", modelName]

/-- Output directory created on success:
`` `/tmp/voice-clone/training/${jobId}/model` `` (part_001 line 278). -/
def outputModelDir (jobId : String) : FsPath :=
  ["tmp", "voice-clone", "training", jobId, "model"]

/-- The artifact path the download route expects:
`` `/tmp/voice-clone/training/${jobId}/model/${modelName}.pth` ``
(part_001 line 172). -/
def expectedWeightPath (jobId modelName : String) : FsPath :=
  outputModelDir jobId ++ [modelName ++ ".pth"]

/-- All working-directory paths a job touches: its dataset directory, the
toolkit logs directory for its model name, and its output directory. -/
def jobWorkPaths (jobId modelName : String) : List FsPath :=
  [datasetDirPath jobId, logsDirPath modelName, outputModelDir jobId]

/-! ### Driver filesystem effects & download route -/

/-- A filesystem operation performed by the routes/driver. -/
inductive FsOp where
  | mkdir (p : FsPath)
  | writeFile (p : FsPath)
  | rmTree (p : FsPath)
deriving DecidableEq, Repr

/-- The filesystem operations `trainInBackground` itself performs: on the
all-stages-succeed path it runs `fs.mkdir(outputDir, { recursive: true })`
(part_001 lines 278-279) and nothing else — the comment `// Move model to
output` (line 277) is followed by no copy or move of any file. -/
def driverFsOps (jobId : String) (oc : StageOutcomes) : List FsOp :=
  if oc.preprocessOk && oc.extractOk && oc.trainOk && oc.indexOk then
    [.mkdir (outputModelDir jobId)]
  else []

/-- Whether a list of filesystem operations creates a file at `p`. -/
def createsFileAt (ops : List FsOp) (p : FsPath) : Bool :=
  ops.any fun op =>
    match op with
    | .writeFile q => q = p
    | _ => false

/-- Result of `GET /train/download/:jobId` (part_001 lines 157-180). -/
inductive DownloadResult where
  | jobNotFound
  | notCompleted (status : JobStatus)
  | fileMissing
  | fileSent (p : FsPath)
deriving DecidableEq, Repr

/-- `GET /train/download/:jobId` for an existing job: rejects unless the job
is `completed`, then serves `expectedWeightPath` if it exists in the set
`files` of files present on disk, else responds `Model file not found`. -/
def downloadTrainedModel (st : JobStatus) (files : List FsPath)
    (jobId modelName : String) : DownloadResult :=
  if st ≠ .completed then .notCompleted st
  else if (expectedWeightPath jobId modelName) ∈ files then
    .fileSent (expectedWeightPath jobId modelName)
  else .fileMissing

/-- The files created by a list of filesystem operations (a `mkdir` creates a
directory, not a file). -/
def filesCreated (ops : List FsOp) : List FsPath :=
  ops.filterMap fun op =>
    match op with
    | .writeFile q => some q
    | _ => none

/-! ### Cancellation side table -/

/-- The keys of the module-level `runningProcesses` map (rvc.ts line 39),
each key holding a live child-process handle. -/
abbrev ProcTable := List String

/-- `train` registers the spawned process under the MODEL NAME:
`runningProcesses.set(options.modelName, proc)` (rvc.ts line 238). -/
def registerTrainingProc (procs : ProcTable) (modelName : String) : ProcTable :=
  modelName :: procs

/-- Effect of `cancelTraining` (rvc.ts lines 314-320): whether a SIGTERM was
sent, and the table afterwards. -/
structure CancelEffect where
  signalSent : Bool
  procsAfter : ProcTable
deriving DecidableEq, Repr

/-- `cancelTraining(jobId)` looks the table up BY JOB ID
(`runningProcesses.get(jobId)`, rvc.ts line 315); only on a hit does it kill
and remove the entry. -/
def cancelTraining (procs : ProcTable) (jobId : String) : CancelEffect :=
  if procs.contains jobId then ⟨true, procs.erase jobId⟩ else ⟨false, procs⟩

/-- Whether `DELETE /train/:jobId` (part_001 lines 202-223) sends a
termination signal: it calls `rvcService.cancelTraining(jobId)` only when
`job.status === 'training'`, then removes the working tree and deletes the
job record unconditionally. -/
def deleteTrainSignal (procs : ProcTable) (st : JobStatus) (jobId : String) :
    Bool :=
  if st = .training then (cancelTraining procs jobId).signalSent else false

/-! ### Conversion adapter -/

/-- Options of `RVCService.convert` (rvc.ts lines 8-15).  `indexRate` is a
JS number; it is carried exactly as a rational. -/
structure ConvertOpts where
  inputPath : String
  outputPath : String
  modelName : String
  pitchShift : Int
  indexRate : Rat
  f0Method : String

/-- `path.join(MODELS_DIR, modelName + '.pth')` with the default
`MODELS_DIR=/data/models` (rvc.ts lines 6, 48). -/
def modelWeightPath (modelName : String) : FsPath :=
  ["data", "models", modelName ++ ".pth"]

/-- `path.join(MODELS_DIR, modelName + '.index')` (rvc.ts line 49). -/
def modelIndexPath (modelName : String) : FsPath :=
  ["data", "models", modelName ++ ".index"]

/-- Render a segment path back to the string handed to the subprocess. -/
def FsPath.render (p : FsPath) : String :=
  p.foldl (fun acc seg => acc ++ "/" ++ seg) ""

/-- The argument list `convert` always builds (rvc.ts lines 66-74), before
the optional index extension. -/
def convertBaseArgs (o : ConvertOpts) : List String :=
  ["/app/rvc/tools/infer_cli.py",
   "--input_path", o.inputPath,
   "--output_path", o.outputPath,
   "--model_path", (modelWeightPath o.modelName).render,
   "--pitch_shift", toString o.pitchShift,
   "--index_rate", toString o.indexRate,
   "--f0_method", o.f0Method]

/-- `RVCService.convert` up to the spawn (rvc.ts lines 45-83): checks that
the weight file exists (throwing `Model not found` before any spawn if not),
probes the optional index file, and spawns `python3` with the assembled
arguments.  `.ok args` means exactly one process was spawned with `args`;
`.error msg` means the call failed with message `msg` and no process was
spawned. -/
def convert (files : List FsPath) (o : ConvertOpts) :
    Except String (List String) :=
  if (modelWeightPath o.modelName) ∈ files then
    if (modelIndexPath o.modelName) ∈ files then
      .ok (convertBaseArgs o ++
        ["--index_path", (modelIndexPath o.modelName).render])
    else
      .ok (convertBaseArgs o)
  else
    .error ("Model not found: " ++ o.modelName)

/-! ### Subprocess close handlers & diagnostics -/

/-- Accumulation of the stderr stream: every handler does
`stderr += data.toString()` over the produced chunks
(rvc.ts lines 85-88, 121-125, 156-160, 194-198, 255-259, 293-297). -/
def stderrAccum (chunks : List String) : String :=
  chunks.foldl (fun acc c => acc ++ c) ""

/-- The diagnostic produced by a stage's `close` handler: `none` when the
exit code is 0 (the promise resolves), otherwise the rejection message
`failLabel ++ stderr` with the FULL accumulated stderr — e.g.
`` `Training failed: ${stderr}` `` (rvc.ts line 266), and likewise
`Conversion failed: `, `Preprocessing failed: `, `F0 extraction failed: `,
`Feature extraction failed: `, `Index creation failed: `. -/
def closeDiagnostic (failLabel : String) (exitCode : Int)
    (chunks : List String) : Option String :=
  if exitCode = 0 then none else some (failLabel ++ stderrAccum chunks)

/-- The six rejection-message labels used by the service's close handlers. -/
def stageFailLabels : List String :=
  ["Conversion failed: ", "Preprocessing failed: ", "F0 extraction failed: ",
   "Feature extraction failed: ", "Training failed: ", "Index creation failed: "]

/-! ### Request defaults -/

/-- Destructuring defaults of `POST /train` (part_001 lines 63-68):
`epochs = '100'`, `sample_rate = '40000'`, `f0_method = 'rmvpe'` applied when
the field is absent from the body. -/
def trainBodyDefaults (epochs? sampleRate? f0? : Option String) :
    String × String × String :=
  (epochs?.getD "100", sampleRate?.getD "40000", f0?.getD "rmvpe")

/-- Destructuring defaults of `POST /convert` (models.ts second router,
lines 147-152): `pitch_shift = '0'`, `index_rate = '0.75'`,
`f0_method = 'rmvpe'`. -/
def convertBodyDefaults (pitch? indexRate? f0? : Option String) :
    String × String × String :=
  (pitch?.getD "0", indexRate?.getD "0.75", f0?.getD "rmvpe")

/-- Value of a nonempty string of decimal digits, `none` otherwise. -/
def digitsToNat? (l : List Char) : Option Nat :=
  match l with
  | [] => none
  | _ =>
    l.foldl
      (fun acc c =>
        acc.bind fun n => if c.isDigit then some (10 * n + (c.toNat - 48)) else none)
      (some 0)

/-- `parseInt` on the decimal integer literals this API feeds it. -/
def jsParseInt (s : String) : Option Int :=
  match s.data with
  | '-' :: rest => (digitsToNat? rest).map fun n => -(n : Int)
  | l => (digitsToNat? l).map fun n => (n : Int)

/-- `parseFloat` on the unsigned plain decimal literals this API feeds it,
exactly: an integer part and an optional fraction part. -/
def decToRat (s : String) : Option Rat :=
  match s.data.span (fun c => !(c = '.')) with
  | (w, []) => (digitsToNat? w).map fun n => (n : Rat)
  | (w, _ :: f) =>
    match digitsToNat? w, digitsToNat? f with
    | some n, some m => some ((n : Rat) + (m : Rat) / (10 : Rat) ^ f.length)
    | _, _ => none

/-- The numeric training parameters after defaulting and `parseInt`
(part_001 lines 96, 110-112). -/
def resolvedTrainParams (epochs? sampleRate? f0? : Option String) :
    Option Int × Option Int × String :=
  let d := trainBodyDefaults epochs? sampleRate? f0?
  (jsParseInt d.1, jsParseInt d.2.1, d.2.2)

/-- The numeric conversion parameters after defaulting, `parseInt` and
`parseFloat` (models.ts lines 166-168). -/
def resolvedConvertParams (pitch? indexRate? f0? : Option String) :
    Option Int × Option Rat × String :=
  let d := convertBodyDefaults pitch? indexRate? f0?
  (jsParseInt d.1, decToRat d.2.1, d.2.2)

/-! ### Shared concrete scenarios -/

/-- A run in which every stage subprocess exits 0 and the training stage
reports no epoch line. -/
def ocAllOk : StageOutcomes := ⟨true, true, [], true, true⟩

/-! ## Claims -/

/-- C1: an explicit cancel/delete request for a job in a non-terminal state
is claimed to signal cooperative termination to the in-flight subprocess and
to record cancellation distinct from `failed`.  The code fails this: `train`
registers the live process under the MODEL NAME (rvc.ts line 238) while
`cancelTraining` looks the table up by JOB ID (line 315), so for the job with
id `4f2a-7c` and model name `alice` in state `training`, `DELETE /train/4f2a-7c`
sends no termination signal even though a live process is registered; and the
`JobStatus` type has no cancellation value at all — only the seven values
enumerated here — so no cancelled outcome distinct from `failed` can ever be
recorded. -/
theorem c1_cancel_signal_never_sent :
    deleteTrainSignal (registerTrainingProc [] "alice") .training "4f2a-7c" = false
    ∧ registerTrainingProc [] "alice" ≠ []
    ∧ ∀ s : JobStatus,
        s = .queued ∨ s = .preprocessing ∨ s = .extracting_features ∨
        s = .training ∨ s = .indexing ∨ s = .completed ∨ s = .failed := by
  refine ⟨by decide, by decide, ?_⟩
  intro s
  cases s <;> simp

/-- C2: when a job's status transitions to `completed`, a weight file named
after `modelName` is claimed to exist at the expected artifact path.  The
code fails this: on the all-success path the driver reaches `completed` with
`progress = 100`, but its only filesystem operation is
`fs.mkdir(outputDir)` — no weight file is ever written under
`/tmp/voice-clone/training/<jobId>/model/`, so the download route answers
`Model file not found` for the completed job. -/
theorem c2_no_artifact_at_completion :
    ((jobTrace 100 ocAllOk).getLast?).map (fun st => (st.status, st.progress))
        = some (.completed, 100)
    ∧ createsFileAt (driverFsOps "4f2a" ocAllOk)
        (expectedWeightPath "4f2a" "alice") = false
    ∧ downloadTrainedModel .completed (filesCreated (driverFsOps "4f2a" ocAllOk))
        "4f2a" "alice" = .fileMissing := by
  refine ⟨by decide, by decide, by decide⟩

lemma jsParseInt_zero : jsParseInt "0" = some 0 := by decide

lemma decToRat_075 : decToRat "0.75" = some (3 / 4 : Rat) := by
  have h : "0.75".data.span (fun c => !(c = '.')) = (['0'], ['.', '7', '5']) := by
    decide
  have h0 : digitsToNat? ['0'] = some 0 := by decide
  have h75 : digitsToNat? ['7', '5'] = some 75 := by decide
  simp only [decToRat, h, h0, h75, List.length_cons, List.length_nil]
  norm_num

/-- C10: with every optional request field omitted, the applied defaults
parse to `epochs = 100`, `sample_rate = 40000`, `f0_method = "rmvpe"` for
training submissions, and `pitch_shift = 0`, `index_rate = 0.75`,
`f0_method = "rmvpe"` for conversion requests. -/
theorem c10_request_defaults :
    resolvedTrainParams none none none = (some 100, some 40000, "rmvpe")
    ∧ resolvedConvertParams none none none = (some 0, some (3 / 4 : Rat), "rmvpe") := by
  refine ⟨by decide, ?_⟩
  show (jsParseInt "0", decToRat "0.75", "rmvpe") = _
  rw [jsParseInt_zero, decToRat_075]

/-- C6: the conversion adapter fails before any spawn when the weight file is
absent, and proceeds with the index arguments omitted (the base argument
list) when the weight file is present but the index file is absent. -/
theorem c6_convert_weight_required_index_optional
    (files : List FsPath) (o : ConvertOpts) :
    (modelWeightPath o.modelName ∉ files →
      convert files o = .error ("Model not found: " ++ o.modelName))
    ∧ (modelWeightPath o.modelName ∈ files →
      modelIndexPath o.modelName ∉ files →
      convert files o = .ok (convertBaseArgs o)) := by
  constructor
  · intro h
    simp [convert, h]
  · intro h1 h2
    simp [convert, h1, h2]

/-- A concrete conversion request against model `alice`. -/
def convOpts0 : ConvertOpts :=
  ⟨"/tmp/voice-clone/input/a.wav", "/tmp/voice-clone/output/a.wav", "alice", 0,
   3 / 4, "rmvpe"⟩

/-- Witness for C6 at concrete inputs: an empty models directory rejects
before spawning, and a directory holding only `alice.pth` (no index) spawns
with the base arguments. -/
theorem c6_convert_witness :
    (modelWeightPath "alice" ∉ ([] : List FsPath)
      ∧ convert [] convOpts0 = .error ("Model not found: " ++ "alice"))
    ∧ (modelWeightPath "alice" ∈ [modelWeightPath "alice"]
      ∧ modelIndexPath "alice" ∉ [modelWeightPath "alice"]
      ∧ convert [modelWeightPath "alice"] convOpts0
          = .ok (convertBaseArgs convOpts0)) := by
  refine ⟨⟨by decide, ?_⟩, by decide, by decide, ?_⟩
  · exact (c6_convert_weight_required_index_optional [] convOpts0).1 (by decide)
  · exact (c6_convert_weight_required_index_optional [modelWeightPath "alice"]
      convOpts0).2 (by decide) (by decide)

/-- C7 counterexample: at the moment `POST /train` returns (trace index
`submitReturnIndex`), the stored job record already reads
`status = preprocessing, progress = 5` — never `queued, 0` — because
`trainInBackground`'s synchronous prefix runs before the handler regains
control, so an immediate status query cannot observe `queued`/`0`. -/
theorem c7_immediate_query_not_queued :
    ((jobTrace 100 ocAllOk).get? submitReturnIndex).map
        (fun st => (st.status, st.progress)) = some (.preprocessing, 5)
    ∧ ((jobTrace 100 ocAllOk).get? submitReturnIndex).map
        (fun st => (st.status, st.progress)) ≠ some (.queued, 0) := by
  refine ⟨by decide, by decide⟩

/-- C7 amended: the submission handler records the job as `queued`/`0`
(trace index 0) and schedules the pipeline without awaiting its completion —
further pipeline snapshots always follow the submit-return point — but the
pipeline's synchronous prefix has already advanced the stored record to
`preprocessing`/`5` by the time the 202 response is sent, so an immediate
status query returns `preprocessing`/`5`, not `queued`/`0`. -/
theorem c7_submit_schedules_without_blocking
    (epochs : Nat) (oc : StageOutcomes) :
    (jobTrace epochs oc).get? 0 = some ⟨.queued, 0, 0⟩
    ∧ (jobTrace epochs oc).get? submitReturnIndex = some ⟨.preprocessing, 5, 0⟩
    ∧ submitReturnIndex + 1 < (jobTrace epochs oc).length := by
  refine ⟨rfl, rfl, ?_⟩
  simp only [jobTrace, submitReturnIndex, List.length_cons]
  cases hp : oc.preprocessOk
  · simp
  · cases he : oc.extractOk <;> simp

/-- A run whose training subprocess reports epoch 5 and then epoch 3. -/
def ocBackward : StageOutcomes := ⟨true, true, [5, 3], true, true⟩

/-- C5 counterexample: with `epochs = 10` and the training subprocess
printing `Epoch: 5` and then `Epoch: 3`, two consecutive stored snapshots —
both in the non-terminal `training` state — have `progress` 62 and then 49:
progress decreases before any terminal state is reached. -/
theorem c5_progress_decrease_cex :
    (jobTrace 10 ocBackward).get? 4 = some ⟨.training, 62, 5⟩
    ∧ (jobTrace 10 ocBackward).get? 5 = some ⟨.training, 49, 3⟩
    ∧ 49 < 62 := by
  refine ⟨by decide, by decide, by decide⟩

/-- C9 counterexample: two distinct jobs (`4f2a` ≠ `9b1c`) that train the
same model name `alice` share the toolkit working directory
`/app/rvc/logs/alice` — an intermediate working path of both jobs. -/
theorem c9_shared_logs_dir_cex :
    "4f2a" ≠ "9b1c"
    ∧ logsDirPath "alice" ∈ jobWorkPaths "4f2a" "alice"
    ∧ logsDirPath "alice" ∈ jobWorkPaths "9b1c" "alice" := by
  refine ⟨by decide, by decide, by decide⟩

/-! ### Trace helper lemmas -/

lemma cons_getLast?_eq {α : Type} (a : α) (l : List α) :
    (a :: l).getLast? = some (l.getLastD a) := by
  induction l generalizing a with
  | nil => rfl
  | cons b t ih => rw [List.getLast?_cons_cons, ih b, List.getLastD_cons]

lemma foldl_epochUpdate (epochs : Nat) :
    ∀ (l : List Nat) (init : JobState),
      l.foldl (fun _ e => epochUpdate epochs e) init
        = (l.map (epochUpdate epochs)).getLastD init := by
  intro l
  induction l with
  | nil => intro init; rfl
  | cons a t ih =>
    intro init
    rw [List.foldl_cons, List.map_cons, List.getLastD_cons]
    exact ih (epochUpdate epochs a)

lemma afterTrain_getLastD (epochs : Nat) (evs : List Nat) :
    afterTrain epochs evs
      = (evs.map (epochUpdate epochs)).getLastD ⟨.training, 30, 0⟩ :=
  foldl_epochUpdate epochs evs _

lemma afterTrain_status (epochs : Nat) (evs : List Nat) :
    (afterTrain epochs evs).status = .training := by
  rw [afterTrain_getLastD]
  rcases evs.eq_nil_or_concat' with rfl | ⟨L, b, rfl⟩
  · rfl
  · rw [List.map_append]
    simp [epochUpdate]

lemma div65_le (t e : Nat) (h : e ≤ t) : 65 * e / t ≤ 65 := by
  rcases Nat.eq_zero_or_pos t with rfl | ht
  · have he : e = 0 := Nat.le_zero.mp h
    simp [he]
  · calc 65 * e / t ≤ 65 * t / t := Nat.div_le_div_right (Nat.mul_le_mul_left 65 h)
      _ = 65 := Nat.mul_div_cancel 65 ht

lemma afterTrain_progress_le (epochs : Nat) (evs : List Nat)
    (hb : ∀ e ∈ evs, e ≤ epochs) :
    (afterTrain epochs evs).progress ≤ 95 := by
  rw [afterTrain_getLastD]
  rcases evs.eq_nil_or_concat' with rfl | ⟨L, b, rfl⟩
  · simp
  · rw [List.map_append]
    have hb' : b ≤ epochs := hb b (by simp)
    have hd := div65_le epochs b hb'
    simp only [List.map_cons, List.map_nil]
    simp [epochUpdate]
    omega

lemma chain'_statusStep_training (epochs : Nat) :
    ∀ (evs : List Nat) (init : JobState), init.status = .training →
      List.Chain' statusStep (init :: evs.map (epochUpdate epochs))
  | [], init, _ => List.chain'_singleton init
  | e :: t, init, h => by
    rw [List.map_cons]
    exact List.chain'_cons.mpr
      ⟨Or.inl (by rw [h]; rfl),
       chain'_statusStep_training epochs t (epochUpdate epochs e) rfl⟩

lemma chain'_block_statusStep (epochs : Nat) (evs : List Nat)
    (tail : List JobState)
    (htail : List.Chain' statusStep tail)
    (hlink : ∀ y ∈ tail.head?, statusEdge .training y.status = true) :
    List.Chain' statusStep
      ((⟨.training, 30, 0⟩ : JobState) :: (evs.map (epochUpdate epochs) ++ tail)) := by
  rw [← List.cons_append]
  refine List.Chain'.append (chain'_statusStep_training epochs evs _ rfl) htail ?_
  intro x hx y hy
  rw [cons_getLast?_eq] at hx
  simp only [Option.mem_def, Option.some.injEq] at hx
  subst hx
  have hxs : ((evs.map (epochUpdate epochs)).getLastD
      (⟨.training, 30, 0⟩ : JobState)).status = .training := by
    rw [← afterTrain_getLastD]
    exact afterTrain_status epochs evs
  exact Or.inr (by rw [hxs]; exact hlink y hy)

/-- C3: the stored job record's status moves only along the §4.5 graph —
forward `queued → preprocessing → extracting_features → training → indexing
→ completed` with `failed` reachable from any non-terminal state, no other
transition (consecutive snapshots either keep the status or follow an edge);
and `training` appears in a trace only when the preprocess and
feature-extraction stages both succeeded first. -/
theorem c3_status_graph (epochs : Nat) (oc : StageOutcomes) :
    List.Chain' statusStep (jobTrace epochs oc)
    ∧ ((∃ st ∈ jobTrace epochs oc, st.status = .training) →
        oc.preprocessOk = true ∧ oc.extractOk = true) := by
  constructor
  · cases hp : oc.preprocessOk
    · simp [jobTrace, hp, List.chain'_cons, statusStep, statusEdge]
    · cases he : oc.extractOk
      · simp [jobTrace, hp, he, List.chain'_cons, statusStep, statusEdge]
      · cases ht : oc.trainOk <;> cases hi : oc.indexOk <;>
          simp only [jobTrace, hp, he, ht, hi, reduceIte] <;>
          refine List.chain'_cons.mpr ⟨Or.inr rfl,
            List.chain'_cons.mpr ⟨Or.inr rfl,
            List.chain'_cons.mpr ⟨Or.inr rfl, ?_⟩⟩⟩
        · exact chain'_block_statusStep epochs _ _
            (List.chain'_singleton _) (by intro y hy; cases hy; rfl)
        · exact chain'_block_statusStep epochs _ _
            (List.chain'_singleton _) (by intro y hy; cases hy; rfl)
        · exact chain'_block_statusStep epochs _ _
            (List.chain'_cons.mpr ⟨Or.inr rfl, List.chain'_singleton _⟩)
            (by intro y hy; cases hy; rfl)
        · exact chain'_block_statusStep epochs _ _
            (List.chain'_cons.mpr ⟨Or.inr rfl, List.chain'_singleton _⟩)
            (by intro y hy; cases hy; rfl)
  · rintro ⟨st, hmem, hst⟩
    cases hp : oc.preprocessOk
    · exfalso
      simp [jobTrace, hp] at hmem
      rcases hmem with rfl | rfl | rfl <;> cases hst
    · cases he : oc.extractOk
      · exfalso
        simp [jobTrace, hp, he] at hmem
        rcases hmem with rfl | rfl | rfl | rfl <;> cases hst
      · exact ⟨rfl, rfl⟩

/-- Witness for C3 at a concrete run: the all-success trace reaches
`training`, and both earlier stages indeed succeeded. -/
theorem c3_status_graph_witness :
    (∃ st ∈ jobTrace 10 ocAllOk, st.status = .training)
    ∧ ocAllOk.preprocessOk = true ∧ ocAllOk.extractOk = true := by
  have hex : ∃ st ∈ jobTrace 10 ocAllOk, st.status = .training :=
    ⟨⟨.training, 30, 0⟩, by decide, rfl⟩
  exact ⟨hex, (c3_status_graph 10 ocAllOk).2 hex⟩

/-- C4: in every stored snapshot, `progress` is 0 while `queued`, 5 in
`preprocessing`, 20 in `extracting_features`,
`30 + ⌊65 · currentEpoch / epochsTotal⌋` in `training` (30 on entry, when
`currentEpoch = 0`, and updated by each epoch event), 95 in `indexing`, and
100 in `completed`. -/
theorem c4_progress_mapping (epochs : Nat) (oc : StageOutcomes)
    (st : JobState) (hmem : st ∈ jobTrace epochs oc) :
    (st.status = .queued → st.progress = 0)
    ∧ (st.status = .preprocessing → st.progress = 5)
    ∧ (st.status = .extracting_features → st.progress = 20)
    ∧ (st.status = .training →
        st.progress = 30 + 65 * st.currentEpoch / epochs)
    ∧ (st.status = .indexing → st.progress = 95)
    ∧ (st.status = .completed → st.progress = 100) := by
  cases hp : oc.preprocessOk
  · simp only [jobTrace, hp] at hmem
    simp at hmem
    rcases hmem with rfl | rfl | rfl <;>
      refine ⟨?_, ?_, ?_, ?_, ?_, ?_⟩ <;> intro h <;> first | rfl | cases h
  · cases he : oc.extractOk
    · simp only [jobTrace, hp, he] at hmem
      simp at hmem
      rcases hmem with rfl | rfl | rfl | rfl <;>
        refine ⟨?_, ?_, ?_, ?_, ?_, ?_⟩ <;> intro h <;> first | rfl | cases h
    · cases ht : oc.trainOk
      · simp only [jobTrace, hp, he, ht] at hmem
        simp at hmem
        rcases hmem with rfl | rfl | rfl | rfl | ⟨e, _, rfl⟩ | rfl <;>
          refine ⟨?_, ?_, ?_, ?_, ?_, ?_⟩ <;> intro h <;>
            first | rfl | simp_all [epochUpdate]
      · cases hi : oc.indexOk
        · simp only [jobTrace, hp, he, ht, hi] at hmem
          simp at hmem
          rcases hmem with rfl | rfl | rfl | rfl | ⟨e, _, rfl⟩ | rfl | rfl <;>
            refine ⟨?_, ?_, ?_, ?_, ?_, ?_⟩ <;> intro h <;>
              first | rfl | simp_all [epochUpdate]
        · simp only [jobTrace, hp, he, ht, hi] at hmem
          simp at hmem
          rcases hmem with rfl | rfl | rfl | rfl | ⟨e, _, rfl⟩ | rfl | rfl <;>
            refine ⟨?_, ?_, ?_, ?_, ?_, ?_⟩ <;> intro h <;>
              first | rfl | simp_all [epochUpdate]

/-- Witness for C4: in the run with `epochs = 10` whose training subprocess
reports epoch 5, the snapshot `(training, 62, 5)` is in the trace and the
theorem evaluates its progress to `30 + ⌊65·5/10⌋ = 62`. -/
theorem c4_progress_mapping_witness :
    ((⟨.training, 62, 5⟩ : JobState) ∈ jobTrace 10 ⟨true, true, [5], true, true⟩)
    ∧ (62 : Nat) = 30 + 65 * 5 / 10 := by
  have h := c4_progress_mapping 10 ⟨true, true, [5], true, true⟩
    ⟨.training, 62, 5⟩ (by decide)
  exact ⟨by decide, h.2.2.2.1 rfl⟩

/-- Snapshot-to-snapshot comparison of the stored `progress` field. -/
def progLe (a b : JobState) : Prop :=
  a.progress ≤ b.progress

instance (a b : JobState) : Decidable (progLe a b) := by
  unfold progLe; infer_instance

lemma chain'_progLe_training (epochs : Nat) (evs : List Nat)
    (hchain : List.Chain' (· ≤ ·) evs) :
    List.Chain' progLe
      ((⟨.training, 30, 0⟩ : JobState) :: evs.map (epochUpdate epochs)) := by
  rw [List.chain'_cons']
  constructor
  · intro y hy
    rcases evs with _ | ⟨e, t⟩
    · simp at hy
    · rw [List.map_cons] at hy
      simp only [List.head?_cons, Option.mem_def, Option.some.injEq] at hy
      subst hy
      exact Nat.le_add_right 30 _
  · rw [List.chain'_map]
    refine List.Chain'.imp ?_ hchain
    intro a b hab
    exact Nat.add_le_add_left (Nat.div_le_div_right (Nat.mul_le_mul_left 65 hab)) 30

lemma chain'_progLe_block (epochs : Nat) (evs : List Nat)
    (tail : List JobState)
    (hchain : List.Chain' (· ≤ ·) evs)
    (htail : List.Chain' progLe tail)
    (hlink : ∀ y ∈ tail.head?, (afterTrain epochs evs).progress ≤ y.progress) :
    List.Chain' progLe
      ((⟨.training, 30, 0⟩ : JobState) :: (evs.map (epochUpdate epochs) ++ tail)) := by
  rw [← List.cons_append]
  refine List.Chain'.append (chain'_progLe_training epochs evs hchain) htail ?_
  intro x hx y hy
  rw [cons_getLast?_eq] at hx
  simp only [Option.mem_def, Option.some.injEq] at hx
  subst hx
  show ((evs.map (epochUpdate epochs)).getLastD ⟨.training, 30, 0⟩).progress
      ≤ y.progress
  rw [← afterTrain_getLastD]
  exact hlink y hy

/-- C5 amended: provided the training subprocess reports non-decreasing
epoch numbers that never exceed the configured epoch total, the stored
`progress` is non-decreasing along the whole trace (every increase being a
stage transition or an intra-training epoch update — those are the only
mutation sites).  Without that proviso the property fails
(`c5_progress_decrease_cex`). -/
theorem c5_progress_monotone (epochs : Nat) (oc : StageOutcomes)
    (hchain : List.Chain' (· ≤ ·) oc.trainEpochEvents)
    (hbound : ∀ e ∈ oc.trainEpochEvents, e ≤ epochs) :
    List.Chain' progLe (jobTrace epochs oc) := by
  cases hp : oc.preprocessOk
  · simp only [jobTrace, hp]
    refine List.chain'_cons.mpr ⟨by norm_num [progLe], ?_⟩
    exact List.chain'_cons.mpr ⟨by norm_num [progLe], List.chain'_singleton _⟩
  · cases he : oc.extractOk
    · simp only [jobTrace, hp, he]
      refine List.chain'_cons.mpr ⟨by norm_num [progLe], ?_⟩
      refine List.chain'_cons.mpr ⟨by norm_num [progLe], ?_⟩
      exact List.chain'_cons.mpr ⟨by norm_num [progLe], List.chain'_singleton _⟩
    · cases ht : oc.trainOk
      · simp only [jobTrace, hp, he, ht]
        refine List.chain'_cons.mpr ⟨by norm_num [progLe], ?_⟩
        refine List.chain'_cons.mpr ⟨by norm_num [progLe], ?_⟩
        refine List.chain'_cons.mpr ⟨by norm_num [progLe], ?_⟩
        refine chain'_progLe_block epochs _ _ hchain (List.chain'_singleton _) ?_
        intro y hy
        simp only [List.head?_cons, Option.mem_def, Option.some.injEq] at hy
        subst hy
        exact le_refl _
      · cases hi : oc.indexOk
        · simp only [jobTrace, hp, he, ht, hi]
          refine List.chain'_cons.mpr ⟨by norm_num [progLe], ?_⟩
          refine List.chain'_cons.mpr ⟨by norm_num [progLe], ?_⟩
          refine List.chain'_cons.mpr ⟨by norm_num [progLe], ?_⟩
          refine chain'_progLe_block epochs _ _ hchain
            (List.chain'_cons.mpr ⟨by norm_num [progLe], List.chain'_singleton _⟩) ?_
          intro y hy
          simp only [List.head?_cons, Option.mem_def, Option.some.injEq] at hy
          subst hy
          exact afterTrain_progress_le epochs _ hbound
        · simp only [jobTrace, hp, he, ht, hi]
          refine List.chain'_cons.mpr ⟨by norm_num [progLe], ?_⟩
          refine List.chain'_cons.mpr ⟨by norm_num [progLe], ?_⟩
          refine List.chain'_cons.mpr ⟨by norm_num [progLe], ?_⟩
          refine chain'_progLe_block epochs _ _ hchain
            (List.chain'_cons.mpr ⟨by norm_num [progLe], List.chain'_singleton _⟩) ?_
          intro y hy
          simp only [List.head?_cons, Option.mem_def, Option.some.injEq] at hy
          subst hy
          exact afterTrain_progress_le epochs _ hbound

/-- Witness for C5 (amended) at a concrete run: with ordered epoch reports
`[3, 5]` bounded by `epochs = 10`, the trace's progress is non-decreasing. -/
theorem c5_progress_monotone_witness :
    (List.Chain' (· ≤ ·) [3, 5] ∧ ∀ e ∈ [3, 5], e ≤ 10)
    ∧ List.Chain' progLe (jobTrace 10 ⟨true, true, [3, 5], true, true⟩) := by
  refine ⟨⟨?_, ?_⟩, ?_⟩
  · simp [List.chain'_cons]
  · decide
  · exact c5_progress_monotone 10 ⟨true, true, [3, 5], true, true⟩
      (by simp [List.chain'_cons]) (by decide)

lemma stderrAccum_length (chunks : List String) :
    (stderrAccum chunks).length = (chunks.map String.length).sum := by
  have h : ∀ (l : List String) (init : String),
      (l.foldl (fun acc c => acc ++ c) init).length
        = init.length + (l.map String.length).sum := by
    intro l
    induction l with
    | nil => intro init; simp
    | cons a t ih =>
      intro init
      rw [List.foldl_cons, ih (init ++ a), String.length_append, List.map_cons,
        List.sum_cons]
      omega
  have h2 := h chunks ""
  simpa [stderrAccum] using h2

/-- C8 amended: every non-success close outcome produces a diagnostic (none
is swallowed — the diagnostic is absent exactly when the exit code is 0),
and the diagnostic embeds the FULL accumulated stderr after the stage's
label: its length is exactly the label length plus the total length of all
stderr chunks, so it is NOT truncated to any bound and grows linearly with
the subprocess's stderr volume (`c8_diagnostic_unbounded_cex`). -/
theorem c8_diagnostic_full_stderr (failLabel : String) (exitCode : Int)
    (chunks : List String) :
    (closeDiagnostic failLabel exitCode chunks = none ↔ exitCode = 0)
    ∧ (exitCode ≠ 0 →
        closeDiagnostic failLabel exitCode chunks
          = some (failLabel ++ stderrAccum chunks))
    ∧ (failLabel ++ stderrAccum chunks).length
        = failLabel.length + (chunks.map String.length).sum := by
  refine ⟨⟨?_, ?_⟩, ?_, ?_⟩
  · intro h
    by_contra hc
    simp [closeDiagnostic, hc] at h
  · intro h
    simp [closeDiagnostic, h]
  · intro h
    simp [closeDiagnostic, h]
  · rw [String.length_append, stderrAccum_length]

/-- Witness for C8 (amended) at a concrete non-zero exit: the diagnostic for
the training stage embeds the whole captured chunk. -/
theorem c8_diagnostic_witness :
    ((1 : Int) ≠ 0)
    ∧ closeDiagnostic "Training failed: " 1 ["boom"]
        = some ("Training failed: " ++ stderrAccum ["boom"])
    ∧ ("Training failed: " ++ stderrAccum ["boom"]).length
        = "Training failed: ".length + (["boom"].map String.length).sum := by
  have h := c8_diagnostic_full_stderr "Training failed: " 1 ["boom"]
  exact ⟨by decide, h.2.1 (by decide), h.2.2⟩

/-- C8 counterexample to the truncation part of the claim: no bound `B`
caps the length of the diagnostics produced for failing subprocesses — a
single stderr chunk of `B + 1` characters already yields a longer one. -/
theorem c8_diagnostic_unbounded_cex :
    ¬ ∃ B : Nat, ∀ chunks : List String, ∀ d : String,
        closeDiagnostic "Training failed: " 1 chunks = some d →
          d.length ≤ B := by
  rintro ⟨B, h⟩
  have hdiag : closeDiagnostic "Training failed: " 1
      [String.mk (List.replicate (B + 1) 'a')]
      = some ("Training failed: "
          ++ stderrAccum [String.mk (List.replicate (B + 1) 'a')]) := by
    simp [closeDiagnostic]
  have hkey := h _ _ hdiag
  rw [String.length_append, stderrAccum_length] at hkey
  simp only [List.map_cons, List.map_nil, List.sum_cons, List.sum_nil] at hkey
  have hlen : (String.mk (List.replicate (B + 1) 'a')).length = B + 1 := by
    show (List.replicate (B + 1) 'a').length = B + 1
    simp
  have hpl : ("Training failed: ").length = 17 := by decide
  omega

/-- C9 amended: two distinct jobs never share a working path PROVIDED their
model names also differ: the dataset and output directories are keyed by
the job id, and the toolkit logs directory by the model name. -/
theorem c9_workdir_exclusive_distinct_names
    (j1 m1 j2 m2 : String) (hj : j1 ≠ j2) (hm : m1 ≠ m2) :
    ∀ p ∈ jobWorkPaths j1 m1, p ∉ jobWorkPaths j2 m2 := by
  intro p hp hq
  simp only [jobWorkPaths, List.mem_cons, List.not_mem_nil, or_false] at hp hq
  rcases hp with rfl | rfl | rfl
  · rcases hq with h | h | h
    · have h2 : some j1 = some j2 := congrArg (fun l => l.get? 3) h
      exact hj (Option.some.inj h2)
    · exact absurd (show (5 : Nat) = 4 from congrArg List.length h) (by decide)
    · have h2 : some ("dataset" : String) = some "model" :=
        congrArg List.getLast? h
      exact absurd (Option.some.inj h2) (by decide)
  · rcases hq with h | h | h
    · exact absurd (show (4 : Nat) = 5 from congrArg List.length h) (by decide)
    · have h2 : some m1 = some m2 := congrArg (fun l => l.get? 3) h
      exact hm (Option.some.inj h2)
    · exact absurd (show (4 : Nat) = 5 from congrArg List.length h) (by decide)
  · rcases hq with h | h | h
    · have h2 : some ("model" : String) = some "dataset" :=
        congrArg List.getLast? h
      exact absurd (Option.some.inj h2) (by decide)
    · exact absurd (show (5 : Nat) = 4 from congrArg List.length h) (by decide)
    · have h2 : some j1 = some j2 := congrArg (fun l => l.get? 3) h
      exact hj (Option.some.inj h2)

/-- Witness for C9 (amended) at concrete inputs: jobs `4f2a` (model `alice`)
and `9b1c` (model `bob`) share no working path. -/
theorem c9_workdir_exclusive_witness :
    ("4f2a" ≠ "9b1c" ∧ "alice" ≠ "bob")
    ∧ datasetDirPath "4f2a" ∉ jobWorkPaths "9b1c" "bob" := by
  refine ⟨⟨by decide, by decide⟩, ?_⟩
  exact c9_workdir_exclusive_distinct_names "4f2a" "alice" "9b1c" "bob"
    (by decide) (by decide) (datasetDirPath "4f2a") (by simp [jobWorkPaths])

end VoiceCloneApi
